import Mathlib

/-!
Shallow embedding of `vscode-cache` (src/index.js): a namespaced, TTL-aware
key-value cache over the VS Code `ExtensionContext.globalState` object.

The in-memory JS object `this.cache` is modelled as an insertion-ordered
association list from string keys to entries.  JS `undefined` arguments and
results are modelled with `Option`.  The single `now()` timestamp
(`Math.floor(Date.now() / 1000)`, src/index.js lines 257-259) is passed
explicitly as an `Int` parameter to every operation that reads the clock.
The asynchronous `globalState.update` is modelled by recording, in the
outcome of the operation, whether the call resolved immediately with a
constant (no store write) or returned the result of the store itself after
writing a payload.
-/

namespace VSCodeCache

/-- One cached item: `{ value: value }` plus the optional `expiration`
Unix timestamp in seconds set by `put` (src/index.js lines 43-50). -/
structure Entry (V : Type) where
  value : V
  expiration : Option Int
deriving DecidableEq

/-- The in-memory mirror `this.cache`: a JS object, modelled as an
insertion-ordered association list with (in well-formed states) unique
string keys. -/
abbrev CacheMap (V : Type) : Type := List (String × Entry V)

/-- JS property read `this.cache[key]`: the first binding of `k`, if any
(states reachable through the API bind each key at most once). -/
def lookupEntry {V : Type} : CacheMap V → String → Option (Entry V)
  | [], _ => none
  | q :: m, k => if q.1 = k then some q.2 else lookupEntry m k

/-- JS property write `this.cache[key] = obj`: overwrite in place if the key
is already bound, otherwise append (JS objects keep insertion order). -/
def setKey {V : Type} : CacheMap V → String → Entry V → CacheMap V
  | [], k, e => [(k, e)]
  | q :: m, k, e => if q.1 = k then (k, e) :: m else q :: setKey m k e

/-- JS `delete this.cache[key]`: drop the binding of `k`. -/
def deleteKey {V : Type} : CacheMap V → String → CacheMap V
  | [], _ => []
  | q :: m, k => if q.1 = k then deleteKey m k else q :: deleteKey m k

/-- The `key` argument of `put` as JavaScript receives it: the code only
checks `typeof key` against the string type (src/index.js line 37), so we
distinguish
a string key from the non-string possibilities the tests exercise. -/
inductive JSKey where
  | str (s : String)
  | num (n : Int)
  | boolVal (b : Bool)
  | objVal
deriving DecidableEq

/-- The optional `expiration` argument of `put`: absent (`undefined`), an
integer number, or a non-integer number — `Number.isInteger` (src/index.js
line 48) is true exactly in the integer case. -/
inductive TtlArg where
  | undef
  | intVal (n : Int)
  | nonIntVal
deriving DecidableEq

/-- What a mutating call returns: `immediate b` models
`new Promise(resolve => resolve(b))` with no store write, and
`storeWrite payload` models `this.context.globalState.update(namespace,
payload)` — the promise then carries whatever the backing store reports,
and `payload = none` models writing `undefined`. -/
inductive OpOutcome (V : Type) where
  | immediate (b : Bool)
  | storeWrite (payload : Option (CacheMap V))

/-- `Cache.prototype.isExpired` (src/index.js lines 238-248): false when the
key is absent or its entry has no expiration, else `now() >= expiration`. -/
def isExpired {V : Type} (m : CacheMap V) (t : Int) (k : String) : Bool :=
  match lookupEntry m k with
  | none => false
  | some e =>
    match e.expiration with
    | none => false
    | some exp => decide (exp ≤ t)

/-- `Cache.prototype.get` (src/index.js lines 87-107).  `defaultValue = none`
means no default was supplied; a `none` result is JS `undefined`. -/
def get {V : Type} (m : CacheMap V) (t : Int) (k : String)
    (defaultValue : Option V) : Option V :=
  match lookupEntry m k with
  | none => defaultValue
  | some e => if isExpired m t k then none else some e.value

/-- `Cache.prototype.has` (src/index.js lines 126-132). -/
def has {V : Type} (m : CacheMap V) (t : Int) (k : String) : Bool :=
  match lookupEntry m k with
  | none => false
  | some _ => if isExpired m t k then false else true

/-- `Cache.prototype.put` (src/index.js lines 34-57): validate the
arguments, build the entry (with `expiration = now() + ttl` exactly when
`Number.isInteger(ttl)`), store it, and persist the whole mapping. -/
def put {V : Type} (m : CacheMap V) (t : Int) (key : JSKey)
    (value : Option V) (ttl : TtlArg) : CacheMap V × OpOutcome V :=
  match key, value with
  | JSKey.str s, some v =>
    let e : Entry V :=
      Entry.mk v (match ttl with
                  | TtlArg.intVal n => some (t + n)
                  | _ => none)
    let m' := setKey m s e
    (m', OpOutcome.storeWrite (some m'))
  | _, _ => (m, OpOutcome.immediate false)

/-- `Cache.prototype.forget` (src/index.js lines 146-159). -/
def forget {V : Type} (m : CacheMap V) (k : String) : CacheMap V × OpOutcome V :=
  match lookupEntry m k with
  | none => (m, OpOutcome.immediate true)
  | some _ =>
    let m' := deleteKey m k
    (m', OpOutcome.storeWrite (some m'))

/-- `Cache.prototype.keys` (src/index.js lines 177-179): `Object.keys`. -/
def keys {V : Type} (m : CacheMap V) : List String :=
  m.map Prod.fst

/-- `Cache.prototype.all` (src/index.js lines 187-193): project every entry
to its raw value, with no expiration filtering. -/
def all {V : Type} (m : CacheMap V) : List (String × V) :=
  m.map (fun p => (p.1, p.2.value))

/-- `Cache.prototype.flush` (src/index.js lines 206-209): reset the local
mirror and persist `undefined` under the namespace. -/
def flush {V : Type} (_m : CacheMap V) : CacheMap V × OpOutcome V :=
  ([], OpOutcome.storeWrite none)

/-- `Cache.prototype.getExpiration` (src/index.js lines 223-229). -/
def getExpiration {V : Type} (m : CacheMap V) (k : String) : Option Int :=
  match lookupEntry m k with
  | none => none
  | some e => e.expiration

end VSCodeCache

namespace VSCodeCache

lemma lookup_setKey_self {V : Type} (m : CacheMap V) (k : String) (e : Entry V) :
    lookupEntry (setKey m k e) k = some e := by
  induction m with
  | nil => simp [setKey, lookupEntry]
  | cons q m ih =>
    by_cases hq : q.1 = k
    · simp [setKey, lookupEntry, hq]
    · simp [setKey, lookupEntry, hq, ih]

lemma lookup_setKey_ne {V : Type} (m : CacheMap V) (k kp : String) (e : Entry V)
    (hne : kp ≠ k) :
    lookupEntry (setKey m k e) kp = lookupEntry m kp := by
  induction m with
  | nil => simp [setKey, lookupEntry, Ne.symm hne]
  | cons q m ih =>
    by_cases hq : q.1 = k
    · simp [setKey, lookupEntry, hq, Ne.symm hne]
    · by_cases hq2 : q.1 = kp
      · simp [setKey, lookupEntry, hq, hq2, hne]
      · simp [setKey, lookupEntry, hq, hq2, ih]

lemma lookup_deleteKey_self {V : Type} (m : CacheMap V) (k : String) :
    lookupEntry (deleteKey m k) k = none := by
  induction m with
  | nil => rfl
  | cons q m ih =>
    by_cases hq : q.1 = k
    · simp [deleteKey, hq, ih]
    · simp [deleteKey, lookupEntry, hq, ih]

lemma lookup_deleteKey_ne {V : Type} (m : CacheMap V) (k kp : String)
    (hne : kp ≠ k) :
    lookupEntry (deleteKey m k) kp = lookupEntry m kp := by
  induction m with
  | nil => rfl
  | cons q m ih =>
    by_cases hq : q.1 = k
    · simp [deleteKey, lookupEntry, hq, Ne.symm hne, ih]
    · by_cases hq2 : q.1 = kp
      · simp [deleteKey, lookupEntry, hq, hq2, hne]
      · simp [deleteKey, lookupEntry, hq, hq2, ih]

lemma mem_keys_iff {V : Type} (m : CacheMap V) (k : String) :
    k ∈ keys m ↔ lookupEntry m k ≠ none := by
  induction m with
  | nil => simp [keys, lookupEntry]
  | cons q m ih =>
    by_cases hq : q.1 = k
    · simp [keys, lookupEntry, hq]
    · rw [lookupEntry, if_neg hq, ← ih]
      simp [keys, Ne.symm hq]

lemma lookup_mem_all {V : Type} (m : CacheMap V) (k : String) (e : Entry V)
    (h : lookupEntry m k = some e) : (k, e.value) ∈ all m := by
  induction m with
  | nil => simp [lookupEntry] at h
  | cons q m ih =>
    by_cases hq : q.1 = k
    · rw [lookupEntry, if_pos hq] at h
      have h2 : q.2 = e := by injection h
      simp [all, ← hq, h2]
    · rw [lookupEntry, if_neg hq] at h
      simp [all] at ih ⊢
      right
      exact ih h

end VSCodeCache

namespace VSCodeCache

/-- C1: code-bug exhibit — with a single entry under the key `k` holding
value `0` and expiration `5`, and `now() = 10`, the entry is expired, yet
`get` with the supplied default `42` returns JS `undefined` instead of the
default, although an absent key with the same default returns `42`; the
jsdoc of the code and the README promise the default for an item that does
not exist or is expired. -/
theorem C1_expired_get_ignores_default :
    isExpired [("k", Entry.mk (0 : Nat) (some 5))] 10 "k" = true ∧
    get [("k", Entry.mk (0 : Nat) (some 5))] 10 "k" (some 42) = none ∧
    get ([] : CacheMap Nat) 10 "k" (some 42) = some 42 :=
  ⟨rfl, rfl, rfl⟩

/-- C2: counterexample — the key `"k"` is present but expired at `now() = 10`
(so `has` is false), yet `getExpiration` still returns the recorded
timestamp rather than absent. -/
theorem C2_counterexample :
    has [("k", Entry.mk (0 : Nat) (some 5))] 10 "k" = false ∧
    getExpiration [("k", Entry.mk (0 : Nat) (some 5))] "k" = some 5 :=
  ⟨rfl, rfl⟩

/-- C2 (amended): `getExpiration` returns the recorded `expiration` of any
key present in `entries`, whether or not the entry is expired (it consults
no clock at all), and is absent exactly when the key is absent or its entry
records no expiration. -/
theorem C2_getExpiration_ignores_expiry {V : Type} (m : CacheMap V)
    (k : String) (x : Int) :
    getExpiration m k = some x ↔
      ∃ e, lookupEntry m k = some e ∧ e.expiration = some x := by
  unfold getExpiration
  cases h : lookupEntry m k with
  | none => simp
  | some e => simp [h]

/-- C3: counterexample — `Number.isInteger(-1)` holds, so a put with the
negative integer ttl `-1` at `now() = 100` records `expiration = 99`
instead of leaving the entry expiration-free as the claim requires. -/
theorem C3_counterexample :
    getExpiration (put ([] : CacheMap Nat) 100 (JSKey.str "k") (some 7)
      (TtlArg.intVal (-1))).1 "k" = some 99 :=
  rfl

/-- C3 (amended): a valid put records `expiration = now() + ttl` exactly
when the ttl argument is an integer — negative integers included — and
records no expiration when the ttl is absent or not an integer. -/
theorem C3_put_expiration {V : Type} (m : CacheMap V) (t : Int) (s : String)
    (v : V) (ttl : TtlArg) :
    getExpiration (put m t (JSKey.str s) (some v) ttl).1 s =
      match ttl with
      | TtlArg.intVal n => some (t + n)
      | _ => none := by
  cases ttl <;> simp [put, getExpiration, lookup_setKey_self]

/-- C4: after a valid `put(key, value)` with no ttl — which issues a store
write of the updated mapping, so its promise carries the report of the
store — `get`
returns the stored value and `has` is true at every read time. -/
theorem C4_put_get_has {V : Type} (m : CacheMap V) (t tr : Int) (s : String)
    (v : V) :
    get (put m t (JSKey.str s) (some v) TtlArg.undef).1 tr s none = some v ∧
    has (put m t (JSKey.str s) (some v) TtlArg.undef).1 tr s = true ∧
    (put m t (JSKey.str s) (some v) TtlArg.undef).2 =
      OpOutcome.storeWrite (some (put m t (JSKey.str s) (some v) TtlArg.undef).1) := by
  have hl : lookupEntry (put m t (JSKey.str s) (some v) TtlArg.undef).1 s
      = some (Entry.mk v none) := lookup_setKey_self m s _
  refine ⟨?_, ?_, rfl⟩
  · simp [get, isExpired, hl]
  · simp [has, isExpired, hl]

/-- C5: `has` is true iff the key is present in `entries` and not expired,
and an entry is expired iff it records an expiration with
`now() >= expiration` (inclusive boundary); absent keys and entries without
a recorded expiration are never expired. -/
theorem C5_has_iff {V : Type} (m : CacheMap V) (t : Int) (k : String) :
    (has m t k = true ↔ (lookupEntry m k ≠ none ∧ isExpired m t k = false)) ∧
    (isExpired m t k = true ↔
      ∃ e x, lookupEntry m k = some e ∧ e.expiration = some x ∧ x ≤ t) := by
  constructor
  · unfold has
    cases h : lookupEntry m k with
    | none => simp
    | some e => by_cases hx : isExpired m t k <;> simp [hx, h]
  · unfold isExpired
    cases h : lookupEntry m k with
    | none => simp
    | some e =>
      cases hx : e.expiration with
      | none => simp [hx]
      | some x => simp [hx]

/-- C6: a put whose key is not a string or whose value is the undefined
sentinel returns an immediately-resolved `false`, leaves `entries`
unchanged, and issues no store write. -/
theorem C6_put_invalid {V : Type} (m : CacheMap V) (t : Int) (key : JSKey)
    (value : Option V) (ttl : TtlArg)
    (h : (∀ s, key ≠ JSKey.str s) ∨ value = none) :
    put m t key value ttl = (m, OpOutcome.immediate false) := by
  cases key with
  | str s =>
    cases value with
    | none => rfl
    | some v =>
      cases h with
      | inl hk => exact absurd rfl (hk s)
      | inr hv => exact absurd hv (by simp)
  | num n => cases value <;> rfl
  | boolVal b => cases value <;> rfl
  | objVal => cases value <;> rfl

/-- C6 witness: putting under the numeric key `100` (as the test suite
does) resolves `false` and leaves the empty cache untouched. -/
theorem C6_put_invalid_witness :
    put ([] : CacheMap Nat) 0 (JSKey.num 100) (some 7) TtlArg.undef
      = ([], OpOutcome.immediate false) :=
  C6_put_invalid [] 0 (JSKey.num 100) (some 7) TtlArg.undef
    (Or.inl (fun _ h => JSKey.noConfusion h))

/-- C7: `keys` lists exactly the keys present in `entries` in the stored
(insertion) order and `all` projects every present entry to its raw value,
both without any expiration filtering: a key that is expired at the read
time still appears in `keys` and with its raw value in `all`. -/
theorem C7_keys_all {V : Type} (m : CacheMap V) (t : Int) (k : String) :
    (k ∈ keys m ↔ lookupEntry m k ≠ none) ∧
    (∀ e, lookupEntry m k = some e → (k, e.value) ∈ all m) ∧
    keys m = (all m).map Prod.fst ∧
    (∀ e, lookupEntry m k = some e → isExpired m t k = true →
      k ∈ keys m ∧ (k, e.value) ∈ all m) := by
  refine ⟨mem_keys_iff m k, fun e he => lookup_mem_all m k e he, ?_, ?_⟩
  · unfold keys all
    rw [List.map_map]
    rfl
  · intro e he _
    exact ⟨(mem_keys_iff m k).mpr (by simp [he]), lookup_mem_all m k e he⟩

/-- C7 witness: in a cache whose sole entry under `"k"` is expired at
`now() = 10`, `keys` still lists `"k"` and `all` still carries its raw
value. -/
theorem C7_keys_all_witness :
    "k" ∈ keys [("k", Entry.mk (0 : Nat) (some 5))] ∧
    ("k", (0 : Nat)) ∈ all [("k", Entry.mk (0 : Nat) (some 5))] :=
  (C7_keys_all [("k", Entry.mk (0 : Nat) (some 5))] 10 "k").2.2.2
    (Entry.mk 0 (some 5)) rfl rfl

/-- C8: forgetting an absent key resolves `true` immediately with no store
write and `entries` unchanged; forgetting a present key (expired or not)
removes exactly that binding and persists the updated mapping, with the
report of the store as the result of the call. -/
theorem C8_forget {V : Type} (m : CacheMap V) (k : String) :
    (lookupEntry m k = none → forget m k = (m, OpOutcome.immediate true)) ∧
    (∀ e, lookupEntry m k = some e →
      forget m k = (deleteKey m k, OpOutcome.storeWrite (some (deleteKey m k))) ∧
      lookupEntry (deleteKey m k) k = none) := by
  constructor
  · intro h
    unfold forget
    rw [h]
  · intro e h
    refine ⟨?_, lookup_deleteKey_self m k⟩
    unfold forget
    rw [h]

/-- C8 witness: forgetting `"k"` in the empty cache is an immediate `true`
no-op, and forgetting the sole (unexpired or expired alike) binding of
`"k"` deletes it and persists the now-empty mapping. -/
theorem C8_forget_witness :
    forget ([] : CacheMap Nat) "k" = ([], OpOutcome.immediate true) ∧
    forget [("k", Entry.mk (5 : Nat) none)] "k"
      = ([], OpOutcome.storeWrite (some [])) :=
  ⟨(C8_forget ([] : CacheMap Nat) "k").1 rfl,
   ((C8_forget [("k", Entry.mk (5 : Nat) none)] "k").2 (Entry.mk 5 none) rfl).1⟩

/-- C9: `flush` resets `entries` to the empty mapping and persists the
absence marker `undefined` — not an empty mapping — under the namespace
with the report of the store as its result; afterwards `keys` is the empty
sequence and `all` the empty mapping. -/
theorem C9_flush {V : Type} (m : CacheMap V) :
    flush m = (([] : CacheMap V), OpOutcome.storeWrite none) ∧
    keys (flush m).1 = [] ∧ all (flush m).1 = [] :=
  ⟨rfl, rfl, rfl⟩

/-- C10: frame property — a valid put leaves the entry of every other key
unchanged, and forget removes at most the binding of its own key, leaving
the entry of every other key unchanged. -/
theorem C10_frame {V : Type} (m : CacheMap V) (t : Int) (s kp : String)
    (v : V) (ttl : TtlArg) (hne : kp ≠ s) :
    lookupEntry (put m t (JSKey.str s) (some v) ttl).1 kp = lookupEntry m kp ∧
    lookupEntry (forget m s).1 kp = lookupEntry m kp := by
  constructor
  · exact lookup_setKey_ne m s kp _ hne
  · unfold forget
    cases h : lookupEntry m s with
    | none => rfl
    | some e => exact lookup_deleteKey_ne m s kp hne

/-- C10 witness: putting under `"b"` and forgetting `"b"` both leave the
entry stored under `"a"` untouched. -/
theorem C10_frame_witness :
    lookupEntry (put [("a", Entry.mk (1 : Nat) none)] 0 (JSKey.str "b")
      (some 2) TtlArg.undef).1 "a" = some (Entry.mk 1 none) ∧
    lookupEntry (forget [("a", Entry.mk (1 : Nat) none), ("b", Entry.mk 2 none)]
      "b").1 "a" = some (Entry.mk 1 none) :=
  ⟨(C10_frame [("a", Entry.mk (1 : Nat) none)] 0 "b" "a" 2 TtlArg.undef
      (by decide)).1,
   (C10_frame [("a", Entry.mk (1 : Nat) none), ("b", Entry.mk 2 none)] 0 "b" "a"
      2 TtlArg.undef (by decide)).2⟩

end VSCodeCache
